import Mathlib

/-!
Verification of the cost-estimator repository (Go).

This file shallowly embeds the core of `cmd/estimate.go` (and the variant
pricing engine `azure/pricing.go`, plus the older `cmd` extraction found in
the repository) and proves or refutes the frozen claims about it.

Go `string` values are modelled as Lean `String`; Go `float64` prices and
quantities as `Rat` (all arithmetic the claims touch — `x*730*y`, `> 0`
comparisons — is exact in both); Go maps that are only read by key as
association lists; Go panics and Go non-termination as `Option` results
(`none` = panic, respectively "did not finish within the given fuel").
-/

namespace CostEstimator

/-! ## Go string helpers

Executable models of the `strings` functions the source uses.  Go's
`ToLower`/`EqualFold` perform Unicode simple folding; on the ASCII data the
program deals in they coincide with per-`Char` lowering, which is what we
use. -/

/-- `startsWithL s pre` models `strings.HasPrefix(s, pre)` on rune lists. -/
def startsWithL : List Char → List Char → Bool
  | _, [] => true
  | [], _ :: _ => false
  | c :: s, p :: ps => c == p && startsWithL s ps

/-- `containsL s sub` models `strings.Contains(s, sub)` on rune lists. -/
def containsL : List Char → List Char → Bool
  | [], sub => sub.isEmpty
  | c :: s, sub => startsWithL (c :: s) sub || containsL s sub

/-- Model of `strings.HasPrefix`. -/
def goStartsWith (s pre : String) : Bool :=
  startsWithL s.data pre.data

/-- Model of `strings.Contains`. -/
def goContains (s sub : String) : Bool :=
  containsL s.data sub.data

/-- Model of `strings.ToLower` (ASCII case mapping). -/
def goToLower (s : String) : String :=
  String.mk (s.data.map Char.toLower)

/-- Model of `strings.EqualFold` (ASCII fold). -/
def goEqualFold (s t : String) : Bool :=
  goToLower s == goToLower t

/-- Model of `strings.TrimPrefix(s, pre)` specialised to the ASCII prefixes
the source uses: dropping `n` runes (the caller has already checked the
prefix is present). -/
def dropChars (s : String) (n : Nat) : String :=
  String.mk (s.data.drop n)

/-- Accumulator pass for `splitDot`. -/
def splitDotAux : List Char → List Char → List String
  | [], acc => [String.mk acc.reverse]
  | c :: rest, acc =>
    if c == '.' then String.mk acc.reverse :: splitDotAux rest []
    else splitDotAux rest (c :: acc)

/-- Model of `strings.Split(s, ".")`. -/
def splitDot (s : String) : List String :=
  splitDotAux s.data []

/-- Model of `strings.Join(parts, ".")`. -/
def joinDot : List String → String
  | [] => ""
  | [s] => s
  | s :: t :: rest => s ++ "." ++ joinDot (t :: rest)

/-! ## Data model for plan attribute values

A Terraform plan attribute value (`map[string]interface{}` entry in Go) is a
JSON value.  `extractStringWithVars` distinguishes: a string, a JSON object
(possibly carrying `references` and/or `constant_value`), JSON null, and
anything else (numbers, booleans, arrays — all of which make it return `""`).

In the object case, Go reads `vv["references"].([]interface{})`: the field
is usable only when present *and* an array, hence `Option (List _)`; array
elements that are not strings are skipped by the `ref.(string)` ok-check,
hence elements of type `Option String`.  `constant_value`, when the key is
present, is rendered with `fmt.Sprintf("%v", cval)`; we store that rendered
string directly. -/

inductive AttrVal where
  /-- the attribute is a direct string literal -/
  | vstr (s : String)
  /-- the attribute is a JSON object with optional `references` array
      (present-and-array or not) and optional `constant_value`
      (stored as its `%v` rendering) -/
  | vobj (references : Option (List (Option String))) (constant_value : Option String)
  /-- JSON null (`v != nil` fails in Go) -/
  | vnull
  /-- any other JSON value (number, bool, array): falls out of the switch -/
  | vother
deriving DecidableEq

/-- A flattened plan resource, as built by `extractResources` in
`cmd/estimate.go` (the `Region`/`RefResource` fields are never populated by
the extraction and play no role in the claims). -/
structure Resource where
  rtype : String
  name : String
  address : String
  values : List (String × AttrVal)
deriving DecidableEq

/-- Outcome of scanning a `references` list in `extractStringWithVars`:
either some reference fired and the Go function returns (`hit r`, where
`r = none` means the recursive call itself never finished within fuel), or
no reference fired and control falls through to `constant_value` (`miss`). -/
inductive ScanOut where
  | hit (r : Option String)
  | miss
deriving DecidableEq

/-! ## The reference resolver `extractStringWithVars`

The Go function is recursive with no termination guarantee, so the embedding
takes a fuel argument: `some s` means the Go call returns `s`, `none` means
the call has not finished within `fuel` nested resolution steps.  The Go
function diverges on an input exactly when the embedding yields `none` for
every fuel. -/

/-- The body of the `for _, ref := range refs` loop of
`extractStringWithVars` for one string reference: try the `var.` branch,
then the resource-path branch; `hit` models the Go `return` statements
inside the loop, `miss` models falling through to the next reference.
`resolve` is the recursive resolver, supplied by `extractStringWithVars`
below. -/
def refStep (resolve : List (String × AttrVal) → String → Option String)
    (refstr key : String) (vars : List (String × String))
    (rmap : List (String × Resource)) : ScanOut :=
  match (if goStartsWith refstr "var." then List.lookup (dropChars refstr 4) vars
         else none) with
  | some v => ScanOut.hit (some v)
  | none =>
    let parts := splitDot refstr
    if parts.length ≥ 3 then
      match List.lookup (joinDot (parts.take 3)) rmap with
      | some res =>
        let field := if parts.length > 3 then parts.getD 3 "" else key
        if field ≠ "" then
          match List.lookup field res.values with
          | some v =>
            if v ≠ AttrVal.vnull then ScanOut.hit (resolve res.values field)
            else ScanOut.miss
          | none => ScanOut.miss
        else ScanOut.miss
      | none => ScanOut.miss
    else ScanOut.miss

/-- The `for _, ref := range refs` loop of `extractStringWithVars`:
non-string array elements fail the `ref.(string)` ok-check and are skipped;
the first reference whose body returns ends the loop. -/
def scanRefs (resolve : List (String × AttrVal) → String → Option String)
    (refs : List (Option String)) (key : String)
    (vars : List (String × String)) (rmap : List (String × Resource)) : ScanOut :=
  match refs with
  | [] => ScanOut.miss
  | none :: rest => scanRefs resolve rest key vars rmap
  | some refstr :: rest =>
    match refStep resolve refstr key vars rmap with
    | ScanOut.hit r => ScanOut.hit r
    | ScanOut.miss => scanRefs resolve rest key vars rmap

/-- Fuel-indexed embedding of `extractStringWithVars` from `cmd/estimate.go`.
`none` = the computation did not complete within `fuel` resolution steps. -/
def extractStringWithVars (fuel : Nat) (m : List (String × AttrVal)) (key : String)
    (vars : List (String × String)) (rmap : List (String × Resource)) : Option String :=
  match fuel with
  | 0 => none
  | Nat.succ f =>
    match List.lookup key m with
    | none => some ""
    | some AttrVal.vnull => some ""
    | some (AttrVal.vstr s) => some s
    | some AttrVal.vother => some ""
    | some (AttrVal.vobj refs cv) =>
      let scanned : ScanOut :=
        match refs with
        | some rs =>
          if rs.isEmpty then ScanOut.miss
          else scanRefs (fun mv k => extractStringWithVars f mv k vars rmap) rs key vars rmap
        | none => ScanOut.miss
      match scanned with
      | ScanOut.hit r => r
      | ScanOut.miss =>
        match cv with
        | some c => some c
        | none => some ""

/-! ## The pricing engine

Both pricing implementations in the repository — `tryAllPricing` in
`cmd/estimate.go` and `(*azurePricing).FetchPrice` in `azure/pricing.go` —
build the same cascade of OData filter tiers, fetch a chain of catalog
pages per tier, and apply the same per-item selection policy.  They differ
only in what a transport/decode failure does: `tryAllPricing` `break`s out
of that tier's page loop and proceeds to the next tier, while `FetchPrice`
`return`s not-found for the whole call.

The network is modelled as an oracle `Filter → List PageResp`: the list
holds the successive responses obtained by following `NextPageLink` for
that tier's filter (the list ends when `NextPageLink` is empty), a `fail`
entry being a request whose `client.Get` or JSON decode errored. -/

/-- One entry of the remote catalog's `Items` array. -/
structure Item where
  retailPrice : Rat
  unitOfMeasure : String
  meterName : String
  armSkuName : String
  skuName : String
  armRegionName : String
deriving DecidableEq

/-- Response to one page request: transport/decode failure, or a decoded
page with its `Items`. -/
inductive PageResp where
  | fail
  | ok (items : List Item)
deriving DecidableEq

/-- A filter tier of the cascade, in the shape built by both `tryAllPricing`
and `FetchPrice`. -/
inductive Filter where
  | tier1 (service region sku : String)
  | tier2 (service region : String)
  | tier3 (service : String)
deriving DecidableEq

/-- The ordered filter list, most to least specific (`filters` in both Go
functions): tier 1 only when region and sku are both non-empty, tier 2 only
when region is non-empty, tier 3 always. -/
def buildFilters (service region sku : String) : List Filter :=
  (if region ≠ "" ∧ sku ≠ "" then [Filter.tier1 service region sku] else []) ++
  (if region ≠ "" then [Filter.tier2 service region] else []) ++
  [Filter.tier3 service]

/-- The Private Link acceptance test (`service == "Private Link"` branch in
both Go functions): meter name case-insensitively "Private Endpoint",
region matched case-insensitively, hourly unit of measure, positive price. -/
def privateLinkMatch (region : String) (item : Item) : Bool :=
  goEqualFold item.meterName "Private Endpoint" &&
  goEqualFold item.armRegionName region &&
  goContains (goToLower item.unitOfMeasure) "hour" &&
  decide (0 < item.retailPrice)

/-- The generic acceptance test (the second `for _, item := range out.Items`
loop in both Go functions): positive price, and one of — sku given and
matched against either SKU field or as a meter-name substring; an
"operation"-style unit or meter; or no sku at all. -/
def genericMatch (sku : String) (item : Item) : Bool :=
  decide (0 < item.retailPrice) &&
  ((!(sku == "") && (item.armSkuName == sku || item.skuName == sku ||
      goContains item.meterName sku)) ||
   goContains (goToLower item.unitOfMeasure) "operation" ||
   goContains (goToLower item.meterName) "operation" ||
   sku == "")

/-- Selection applied to one page's `Items`, first match in catalog order:
the Private Link special case replaces the generic policy for the whole
call when the service is "Private Link". -/
def selectInPage (service region sku : String) (items : List Item) : Option Item :=
  if service == "Private Link" then items.find? (privateLinkMatch region)
  else items.find? (genericMatch sku)

/-- Page loop of `tryAllPricing`: follow the page chain until a match; a
`fail` entry models `err != nil → break`, ending the tier without a match. -/
def scanTierBreak (sel : List Item → Option Item) : List PageResp → Option Item
  | [] => none
  | PageResp.fail :: _ => none
  | PageResp.ok items :: rest =>
    match sel items with
    | some i => some i
    | none => scanTierBreak sel rest

/-- Outcome of one tier's page loop under `FetchPrice` semantics, where a
failure must be distinguished from running out of pages. -/
inductive TierOutcome where
  | found (i : Item)
  | exhausted
  | failed
deriving DecidableEq

/-- Page loop of `FetchPrice`: like `scanTierBreak` but a failure is
reported as such (Go: `return 0, "", false` from inside the page loop). -/
def scanTierStrict (sel : List Item → Option Item) : List PageResp → TierOutcome
  | [] => TierOutcome.exhausted
  | PageResp.fail :: _ => TierOutcome.failed
  | PageResp.ok items :: rest =>
    match sel items with
    | some i => TierOutcome.found i
    | none => scanTierStrict sel rest

/-- Tier cascade of `tryAllPricing`: a tier that found nothing — whether it
exhausted its pages or broke on a failure — is followed by the next tier. -/
def cascadeBreak (sel : List Item → Option Item) (cat : Filter → List PageResp) :
    List Filter → Option Item
  | [] => none
  | f :: fs =>
    match scanTierBreak sel (cat f) with
    | some i => some i
    | none => cascadeBreak sel cat fs

/-- Tier cascade of `FetchPrice`: a failed tier aborts the whole lookup. -/
def cascadeStrict (sel : List Item → Option Item) (cat : Filter → List PageResp) :
    List Filter → Option Item
  | [] => none
  | f :: fs =>
    match scanTierStrict sel (cat f) with
    | TierOutcome.found i => some i
    | TierOutcome.failed => none
    | TierOutcome.exhausted => cascadeStrict sel cat fs

/-- The item selected by `tryAllPricing` (`cmd/estimate.go`), if any. -/
def tryAllPricingItem (service region sku : String) (cat : Filter → List PageResp) :
    Option Item :=
  if service == "" then none
  else cascadeBreak (selectInPage service region sku) cat (buildFilters service region sku)

/-- Embedding of `tryAllPricing` from `cmd/estimate.go`:
`(unitCost, unitOfMeasure, found)`. -/
def tryAllPricing (service region sku : String) (cat : Filter → List PageResp) :
    Rat × String × Bool :=
  match tryAllPricingItem service region sku cat with
  | some i => (i.retailPrice, i.unitOfMeasure, true)
  | none => (0, "", false)

/-- The item selected by `FetchPrice` (`azure/pricing.go`), if any.  Note
`FetchPrice` has no empty-service guard. -/
def fetchPriceItem (service region sku : String) (cat : Filter → List PageResp) :
    Option Item :=
  cascadeStrict (selectInPage service region sku) cat (buildFilters service region sku)

/-- Embedding of `(*azurePricing).FetchPrice` from `azure/pricing.go`. -/
def fetchPrice (service region sku : String) (cat : Filter → List PageResp) :
    Rat × String × Bool :=
  match fetchPriceItem service region sku cat with
  | some i => (i.retailPrice, i.unitOfMeasure, true)
  | none => (0, "", false)

/-! ## The cost calculator -/

/-- The monthly-cost extrapolation applied inside `runEstimate`'s
`if foundPrice` block (`cmd/estimate.go` lines 176–190), keyed on the unit
of measure, case-insensitively. -/
def monthlyCost (unitCost : Rat) (unit : String) (quantity : Rat) : Rat :=
  if goContains (goToLower unit) "hour" then unitCost * 730 * quantity
  else if goContains (goToLower unit) "gb" && decide (0 < quantity) then unitCost * quantity
  else if goContains (goToLower unit) "operation" && decide (0 < quantity) then
    unitCost * quantity
  else unitCost * quantity

/-- The per-resource pricing finalization of `runEstimate`
(`cmd/estimate.go` lines 163–190): given the resource type, the triple
returned by `tryAllPricing` and the quantity, apply the private-endpoint
fallback and then the monthly-cost extrapolation, yielding
`(unitCost, unit, monthlyCost, foundPrice)`. -/
def priceRecord (rtype : String) (uc0 : Rat) (unit0 : String) (found0 : Bool)
    (qty : Rat) : Rat × String × Rat × Bool :=
  let s :=
    if rtype == "azurerm_private_endpoint" && !found0 then
      ((1 : Rat)/100, "1 Hour", (1 : Rat)/100 * 730 * qty, true)
    else (uc0, unit0, (0 : Rat), found0)
  if s.2.2.2 then (s.1, s.2.1, monthlyCost s.1 s.2.1 qty, true) else s

/-! ## The plan tree walker

`extractResources` in `cmd/estimate.go` walks `resources` and
`child_modules`.  Each element of `resources` is cast with an unchecked
type assertion `x.(map[string]interface{})`, and its `values` field with
`m["values"].(map[string]interface{})`: either assertion panics when the
shape is off.  A panic is modelled as `none`.  (The `resourceMap` side
effect is not modelled; no claim concerns it.)

A resource-array entry: either a JSON object — whose `type`/`name`/`address`
we store already rendered by `toString`, and whose `values` field is
`some _` exactly when present and an object — or a non-object value. -/

inductive PEntry where
  | eobj (ty nm ad : String) (vals : Option (List (String × AttrVal)))
  | enonobj
deriving DecidableEq

/-- A module node: `resources` is `some _` exactly when the key is present
and an array (`mod["resources"].([]interface{})` ok-checked), likewise
`child_modules`. -/
inductive PModule where
  | mk (resources : Option (List PEntry)) (children : Option (List PModule))

/-- The inner `for _, x := range arr` loop of `extractResources` in
`cmd/estimate.go`: `none` = panic on an unchecked type assertion. -/
def extractEntries : List PEntry → Option (List Resource)
  | [] => some []
  | PEntry.enonobj :: _ => none
  | PEntry.eobj ty nm ad vals? :: rest =>
    match vals? with
    | none => none
    | some vals =>
      match extractEntries rest with
      | none => none
      | some rs => some (Resource.mk ty nm ad vals :: rs)

mutual

/-- Embedding of `extractResources` from `cmd/estimate.go`: own resources
first, then each child module's, depth-first; `none` = panic. -/
def extractResources : PModule → Option (List Resource)
  | PModule.mk res? ch? =>
    match (match res? with | some es => extractEntries es | none => some []) with
    | none => none
    | some rs =>
      match ch? with
      | none => some rs
      | some children =>
        match extractChildren children with
        | none => none
        | some rs2 => some (rs ++ rs2)

/-- The `for _, c := range children` loop of `extractResources`
(`cmd/estimate.go`); the child cast `c.(map[string]interface{})` is also
unchecked, but `PModule` children are objects by construction. -/
def extractChildren : List PModule → Option (List Resource)
  | [] => some []
  | c :: cs =>
    match extractResources c with
    | none => none
    | some rs =>
      match extractChildren cs with
      | none => none
      | some rs2 => some (rs ++ rs2)

end

/-- Output row of the older walker in the superseded `cmd` estimate command
(`extractResources` in the unnamed older source file): only type, name and
values are kept. -/
structure ResV1 where
  ty : String
  nm : String
  values : List (String × AttrVal)
deriving DecidableEq

/-- The entry loop of the older `extractResources` (unnamed older source
file, lines 127–156): non-object entries fail the
`r.(map[string]interface{})` ok-check and are skipped; a missing or
non-object `values` is tolerated (`values, _ := ...`) and yields a nil map,
modelled as `[]`.  No panic is possible. -/
def extractEntriesV1 : List PEntry → List ResV1
  | [] => []
  | PEntry.enonobj :: rest => extractEntriesV1 rest
  | PEntry.eobj ty nm _ vals? :: rest =>
    ResV1.mk ty nm (vals?.getD []) :: extractEntriesV1 rest

mutual

/-- Embedding of the older `extractResources` (unnamed older source file):
same traversal order, but malformed entries are skipped, never fatal. -/
def extractResourcesV1 : PModule → List ResV1
  | PModule.mk res? ch? =>
    (match res? with | some es => extractEntriesV1 es | none => []) ++
    (match ch? with | some children => extractChildrenV1 children | none => [])

/-- Child-module loop of the older `extractResources`. -/
def extractChildrenV1 : List PModule → List ResV1
  | [] => []
  | c :: cs => extractResourcesV1 c ++ extractChildrenV1 cs

end

/-! ## Resolver lemmas -/

/-- Unfolding `extractStringWithVars` at positive fuel when the attribute is
a direct string literal. -/
theorem resolve_vstr (f : Nat) (m : List (String × AttrVal)) (key s : String)
    (vars : List (String × String)) (rmap : List (String × Resource))
    (h : List.lookup key m = some (AttrVal.vstr s)) :
    extractStringWithVars (f + 1) m key vars rmap = some s := by
  simp only [extractStringWithVars, h]

/-- Unfolding `extractStringWithVars` at positive fuel when the attribute
object carries a non-empty `references` array: the result is the scan,
falling back to `constant_value`. -/
theorem resolve_vobj_scan (f : Nat) (m : List (String × AttrVal)) (key : String)
    (vars : List (String × String)) (rmap : List (String × Resource))
    (rs : List (Option String)) (cv : Option String)
    (h : List.lookup key m = some (AttrVal.vobj (some rs) cv)) (hne : rs ≠ []) :
    extractStringWithVars (f + 1) m key vars rmap =
      (match scanRefs (fun mv k => extractStringWithVars f mv k vars rmap) rs key vars rmap with
       | ScanOut.hit r => r
       | ScanOut.miss => match cv with | some c => some c | none => some "") := by
  cases rs with
  | nil => exact absurd rfl hne
  | cons a l =>
    simp only [extractStringWithVars, h, List.isEmpty_cons, Bool.false_eq_true, if_false]
    cases cv <;> rfl

/-- References whose loop body falls through do not affect the scan: a
prefix of misses can be dropped. -/
theorem scanRefs_append_miss (resolve : List (String × AttrVal) → String → Option String)
    (pre l : List (Option String)) (key : String)
    (vars : List (String × String)) (rmap : List (String × Resource))
    (hpre : ∀ r : String, some r ∈ pre → refStep resolve r key vars rmap = ScanOut.miss) :
    scanRefs resolve (pre ++ l) key vars rmap = scanRefs resolve l key vars rmap := by
  induction pre with
  | nil => rfl
  | cons a pre ih =>
    cases a with
    | none =>
      rw [List.cons_append]
      simp only [scanRefs]
      exact ih fun r hr => hpre r (List.mem_cons_of_mem _ hr)
    | some refstr =>
      rw [List.cons_append]
      simp only [scanRefs]
      rw [hpre refstr (List.mem_cons_self _ _)]
      exact ih fun r hr => hpre r (List.mem_cons_of_mem _ hr)

/-- The resource-path branch of the loop body: a reference of exactly three
dot-separated components whose address is indexed, resolving the same key,
recurses into the target resource's values. -/
theorem refStep_resource (resolve : List (String × AttrVal) → String → Option String)
    (refstr key : String) (vars : List (String × String))
    (rmap : List (String × Resource)) (res : Resource) (av : AttrVal)
    (hvar : goStartsWith refstr "var." = false)
    (h3 : (splitDot refstr).length = 3)
    (haddr : List.lookup (joinDot ((splitDot refstr).take 3)) rmap = some res)
    (hkey : key ≠ "")
    (hfield : List.lookup key res.values = some av)
    (hav : av ≠ AttrVal.vnull) :
    refStep resolve refstr key vars rmap = ScanOut.hit (resolve res.values key) := by
  simp only [refStep, hvar, if_false, Bool.false_eq_true, h3, haddr, le_refl, if_true,
    lt_irrefl, hkey, hfield, hav, ne_eq, not_false_eq_true, ite_true, ite_false,
    ge_iff_le]

/-- One resolution hop through a single-reference attribute: the resolver at
fuel `f+1` on the source equals the resolver at fuel `f` on the target. -/
theorem resolve_hop (f : Nat) (m : List (String × AttrVal)) (key refstr : String)
    (vars : List (String × String)) (rmap : List (String × Resource))
    (res : Resource) (cv : Option String) (av : AttrVal)
    (hA : List.lookup key m = some (AttrVal.vobj (some [some refstr]) cv))
    (hvar : goStartsWith refstr "var." = false)
    (h3 : (splitDot refstr).length = 3)
    (haddr : List.lookup (joinDot ((splitDot refstr).take 3)) rmap = some res)
    (hkey : key ≠ "")
    (hfield : List.lookup key res.values = some av)
    (hav : av ≠ AttrVal.vnull) :
    extractStringWithVars (f + 1) m key vars rmap =
      extractStringWithVars f res.values key vars rmap := by
  rw [resolve_vobj_scan f m key vars rmap [some refstr] cv hA (by simp)]
  simp only [scanRefs]
  rw [refStep_resource _ refstr key vars rmap res av hvar h3 haddr hkey hfield hav]

/-! ## Concrete resolver inputs used by witnesses and the cycle analysis -/

/-- Chain endpoint: its `location` is a direct literal. -/
def chainC : Resource :=
  Resource.mk "azurerm_c" "c" "azurerm_c.c.0" [("location", AttrVal.vstr "uksouth")]

/-- Chain middle: its `location` references `chainC`'s. -/
def chainB : Resource :=
  Resource.mk "azurerm_b" "b" "azurerm_b.b.0"
    [("location", AttrVal.vobj (some [some "azurerm_c.c.0"]) none)]

/-- Chain head's attribute map: `location` references `chainB`'s. -/
def chainAvals : List (String × AttrVal) :=
  [("location", AttrVal.vobj (some [some "azurerm_b.b.0"]) none)]

/-- Address index for the A→B→C chain. -/
def chainMap : List (String × Resource) :=
  [("azurerm_b.b.0", chainB), ("azurerm_c.c.0", chainC)]

/-- Cycle: resource A whose `location` references B's `location`. -/
def cycleA : Resource :=
  Resource.mk "azurerm_a" "a" "azurerm_a.a.x"
    [("location", AttrVal.vobj (some [some "azurerm_b.b.x"]) none)]

/-- Cycle: resource B whose `location` references A's `location`. -/
def cycleB : Resource :=
  Resource.mk "azurerm_b" "b" "azurerm_b.b.x"
    [("location", AttrVal.vobj (some [some "azurerm_a.a.x"]) none)]

/-- Address index holding the two-resource reference cycle. -/
def cycleMap : List (String × Resource) :=
  [("azurerm_a.a.x", cycleA), ("azurerm_b.b.x", cycleB)]

/-- On the cyclic plan, each step of `extractStringWithVars` on either
resource reduces to the resolver on the other resource at one fuel less, so
no amount of fuel produces a result. -/
theorem cycle_pair_no_result (fuel : Nat) :
    extractStringWithVars fuel cycleA.values "location" [] cycleMap = none ∧
    extractStringWithVars fuel cycleB.values "location" [] cycleMap = none := by
  induction fuel with
  | zero => exact ⟨rfl, rfl⟩
  | succ n ih =>
    refine ⟨?_, ?_⟩
    · have h : extractStringWithVars (n + 1) cycleA.values "location" [] cycleMap =
          extractStringWithVars n cycleB.values "location" [] cycleMap := rfl
      rw [h]
      exact ih.2
    · have h : extractStringWithVars (n + 1) cycleB.values "location" [] cycleMap =
          extractStringWithVars n cycleA.values "location" [] cycleMap := rfl
      rw [h]
      exact ih.1

/-- C1: the claim asks that resolving a cyclically-referencing field
terminate with a `CyclicReference` error.  The code has no cycle detection:
on the concrete cycle `cycleA ↔ cycleB` (same attribute `location` on each
side) the recursion in `extractStringWithVars` never completes — for every
fuel bound the embedding yields no result, i.e. the Go function recurses
forever instead of reporting an error. -/
theorem extractStringWithVars_cycle_diverges :
    ∀ fuel : Nat, extractStringWithVars fuel cycleA.values "location" [] cycleMap = none :=
  fun fuel => (cycle_pair_no_result fuel).1

/-- C5: transitive resolution.  If A's attribute references B's attribute
(a three-component resource path, not a variable reference), B's references
C's the same way, and C's attribute is a direct literal, then resolving the
attribute on A returns C's literal (with three resolution steps of fuel to
spare over any base). -/
theorem resolve_transitive_chain (f : Nat) (key lit refB refC : String)
    (B C : Resource) (cvA cvB : Option String)
    (mA : List (String × AttrVal)) (vars : List (String × String))
    (rmap : List (String × Resource))
    (hkey : key ≠ "")
    (hA : List.lookup key mA = some (AttrVal.vobj (some [some refB]) cvA))
    (hBvar : goStartsWith refB "var." = false)
    (hB3 : (splitDot refB).length = 3)
    (hBaddr : List.lookup (joinDot ((splitDot refB).take 3)) rmap = some B)
    (hB : List.lookup key B.values = some (AttrVal.vobj (some [some refC]) cvB))
    (hCvar : goStartsWith refC "var." = false)
    (hC3 : (splitDot refC).length = 3)
    (hCaddr : List.lookup (joinDot ((splitDot refC).take 3)) rmap = some C)
    (hC : List.lookup key C.values = some (AttrVal.vstr lit)) :
    extractStringWithVars (f + 3) mA key vars rmap = some lit := by
  have e3 : f + 3 = (f + 2) + 1 := rfl
  rw [e3, resolve_hop (f + 2) mA key refB vars rmap B cvA _ hA hBvar hB3 hBaddr hkey hB
    (by simp)]
  have e2 : f + 2 = (f + 1) + 1 := rfl
  rw [e2, resolve_hop (f + 1) B.values key refC vars rmap C cvB _ hB hCvar hC3 hCaddr hkey hC
    (by simp)]
  exact resolve_vstr f C.values key lit vars rmap hC

/-- Witness for C5 at the concrete A→B→C chain. -/
theorem resolve_transitive_chain_witness :
    extractStringWithVars 3 chainAvals "location" [] chainMap = some "uksouth" :=
  resolve_transitive_chain 0 "location" "uksouth" "azurerm_b.b.0" "azurerm_c.c.0"
    chainB chainC none none chainAvals [] chainMap
    (by decide) (by decide) (by decide) (by decide) (by decide) (by decide)
    (by decide) (by decide) (by decide) (by decide)

/-- C6: variable references win immediately.  If the `references` array is
`pre ++ var-ref :: rest` where every reference before the variable
reference falls through, the variable reference has the `var.` prefix and
its name is in the variable table, then the resolver returns the variable's
value — for any remaining references `rest`, any address index, and any
`constant_value`, none of which are consulted. -/
theorem resolve_variable_first_wins (f : Nat) (m : List (String × AttrVal))
    (key refstr v : String) (pre rest : List (Option String)) (cv : Option String)
    (vars : List (String × String)) (rmap : List (String × Resource))
    (hm : List.lookup key m = some (AttrVal.vobj (some (pre ++ some refstr :: rest)) cv))
    (hvar : goStartsWith refstr "var." = true)
    (hv : List.lookup (dropChars refstr 4) vars = some v)
    (hpre : ∀ r : String, some r ∈ pre →
      refStep (fun mv k => extractStringWithVars f mv k vars rmap) r key vars rmap =
        ScanOut.miss) :
    extractStringWithVars (f + 1) m key vars rmap = some v := by
  rw [resolve_vobj_scan f m key vars rmap _ cv hm (by simp)]
  rw [scanRefs_append_miss _ pre _ key vars rmap hpre]
  simp only [scanRefs, refStep, hvar, if_true, hv]

/-- Witness for C6: a skipped non-string reference precedes `var.region`;
a further reference, a populated address index and a `constant_value` are
all present and all ignored. -/
theorem resolve_variable_first_wins_witness :
    extractStringWithVars 1
      [("location", AttrVal.vobj (some [none, some "var.region", some "azurerm_c.c.0"])
        (some "fallback"))]
      "location" [("region", "westeurope")] chainMap = some "westeurope" :=
  resolve_variable_first_wins 0
    [("location", AttrVal.vobj (some [none, some "var.region", some "azurerm_c.c.0"])
      (some "fallback"))]
    "location" "var.region" "westeurope" [none] [some "azurerm_c.c.0"] (some "fallback")
    [("region", "westeurope")] chainMap
    (by decide) (by decide) (by decide)
    (fun r hr => by simp at hr)

/-- C7: a direct string literal is returned unchanged, and an absent or
null attribute yields the empty string, at any positive fuel. -/
theorem resolve_literal_or_missing (f : Nat) (m : List (String × AttrVal)) (key s : String)
    (vars : List (String × String)) (rmap : List (String × Resource)) :
    (List.lookup key m = some (AttrVal.vstr s) →
      extractStringWithVars (f + 1) m key vars rmap = some s) ∧
    (List.lookup key m = none → extractStringWithVars (f + 1) m key vars rmap = some "") ∧
    (List.lookup key m = some AttrVal.vnull →
      extractStringWithVars (f + 1) m key vars rmap = some "") := by
  refine ⟨fun h => ?_, fun h => ?_, fun h => ?_⟩ <;> simp only [extractStringWithVars, h]

/-- Witness for C7: a literal attribute, an absent key, and a null
attribute, on concrete maps. -/
theorem resolve_literal_or_missing_witness :
    extractStringWithVars 1 [("location", AttrVal.vstr "eastus")] "location" [] [] =
      some "eastus" ∧
    extractStringWithVars 1 [("size", AttrVal.vstr "D2")] "location" [] [] = some "" ∧
    extractStringWithVars 1 [("location", AttrVal.vnull)] "location" [] [] = some "" :=
  ⟨(resolve_literal_or_missing 0 [("location", AttrVal.vstr "eastus")] "location" "eastus"
      [] []).1 (by decide),
   (resolve_literal_or_missing 0 [("size", AttrVal.vstr "D2")] "location" "" [] []).2.1
     (by decide),
   (resolve_literal_or_missing 0 [("location", AttrVal.vnull)] "location" "" [] []).2.2
     (by decide)⟩

/-! ## Plan walker: malformed-resource behaviour (C2) -/

/-- A module whose `resources` array starts with a non-object entry,
followed by a perfectly well-formed resource. -/
def malformedEntryModule : PModule :=
  PModule.mk
    (some [PEntry.enonobj,
      PEntry.eobj "azurerm_virtual_network" "vnet" "azurerm_virtual_network.vnet"
        (some [("location", AttrVal.vstr "eastus")])])
    none

/-- A module whose first resource entry is an object missing its `values`
object, followed by a well-formed resource. -/
def missingValuesModule : PModule :=
  PModule.mk
    (some [PEntry.eobj "azurerm_subnet" "snet" "azurerm_subnet.snet" none,
      PEntry.eobj "azurerm_virtual_network" "vnet" "azurerm_virtual_network.vnet"
        (some [("location", AttrVal.vstr "eastus")])])
    none

/-- C2: the claim says malformed resource entries are skipped and never
abort the walk.  In `extractResources` of `cmd/estimate.go` the unchecked
type assertions panic instead: on both malformed shapes the whole walk
aborts (`none`) and the well-formed sibling resource is lost.  The older
walker in the superseded command (modelled as `extractResourcesV1`) shows
the intended behaviour: the non-object entry is skipped and the well-formed
resource survives. -/
theorem extractResources_malformed_panics :
    extractResources malformedEntryModule = none ∧
    extractResources missingValuesModule = none ∧
    extractResourcesV1 malformedEntryModule =
      [ResV1.mk "azurerm_virtual_network" "vnet" [("location", AttrVal.vstr "eastus")]] := by
  refine ⟨rfl, rfl, rfl⟩

/-! ## Pricing cascade lemmas -/

/-- Any item produced by one tier's page loop (break-on-failure variant)
was selected from some page's items. -/
theorem scanTierBreak_some (sel : List Item → Option Item) (pages : List PageResp)
    (i : Item) (h : scanTierBreak sel pages = some i) :
    ∃ items, sel items = some i := by
  induction pages with
  | nil => exact absurd h (by simp [scanTierBreak])
  | cons p rest ih =>
    cases p with
    | fail => exact absurd h (by simp [scanTierBreak])
    | ok items =>
      rw [scanTierBreak] at h
      cases hs : sel items with
      | some j => rw [hs] at h; exact ⟨items, hs.trans (by injection h with h; rw [h])⟩
      | none => rw [hs] at h; exact ih h

/-- Any item produced by one tier's page loop (strict variant) was selected
from some page's items. -/
theorem scanTierStrict_found (sel : List Item → Option Item) (pages : List PageResp)
    (i : Item) (h : scanTierStrict sel pages = TierOutcome.found i) :
    ∃ items, sel items = some i := by
  induction pages with
  | nil => exact absurd h (by simp [scanTierStrict])
  | cons p rest ih =>
    cases p with
    | fail => exact absurd h (by simp [scanTierStrict])
    | ok items =>
      rw [scanTierStrict] at h
      cases hs : sel items with
      | some j => rw [hs] at h; exact ⟨items, hs.trans (by injection h with h; rw [h])⟩
      | none => rw [hs] at h; exact ih h

/-- Any item produced by the break-variant cascade was selected from some
page's items. -/
theorem cascadeBreak_some (sel : List Item → Option Item) (cat : Filter → List PageResp)
    (fs : List Filter) (i : Item) (h : cascadeBreak sel cat fs = some i) :
    ∃ items, sel items = some i := by
  induction fs with
  | nil => exact absurd h (by simp [cascadeBreak])
  | cons f fs ih =>
    rw [cascadeBreak] at h
    cases hs : scanTierBreak sel (cat f) with
    | some j =>
      rw [hs] at h
      injection h with h
      exact scanTierBreak_some sel (cat f) i (by rw [hs, h])
    | none => rw [hs] at h; exact ih h

/-- Any item produced by the strict cascade was selected from some page's
items. -/
theorem cascadeStrict_some (sel : List Item → Option Item) (cat : Filter → List PageResp)
    (fs : List Filter) (i : Item) (h : cascadeStrict sel cat fs = some i) :
    ∃ items, sel items = some i := by
  induction fs with
  | nil => exact absurd h (by simp [cascadeStrict])
  | cons f fs ih =>
    rw [cascadeStrict] at h
    cases hs : scanTierStrict sel (cat f) with
    | found j =>
      rw [hs] at h
      injection h with h
      exact scanTierStrict_found sel (cat f) i (by rw [hs, h])
    | exhausted => rw [hs] at h; exact ih h
    | failed => rw [hs] at h; exact absurd h (by simp)

/-- Every acceptance clause of the per-item selection — Private Link
special case and all three generic clauses — requires a strictly positive
retail price. -/
theorem selectInPage_some_pos (service region sku : String) (items : List Item) (i : Item)
    (h : selectInPage service region sku items = some i) : 0 < i.retailPrice := by
  unfold selectInPage at h
  split at h
  · have hp := List.find?_some h
    unfold privateLinkMatch at hp
    exact of_decide_eq_true ((Bool.and_eq_true _ _).mp hp).2
  · have hp := List.find?_some h
    unfold genericMatch at hp
    exact of_decide_eq_true ((Bool.and_eq_true _ _).mp hp).1

/-- C4: for the private-connectivity service, any item either pricing
implementation returns satisfies exactly the Private Link conditions
(meter name case-insensitively "Private Endpoint", case-insensitive region
match, hourly unit, positive price), whatever tier it came from; and the
selection function used on every page of every tier is the Private Link
matcher, never the generic one. -/
theorem privateLink_exact_match_only (region sku : String) (cat : Filter → List PageResp)
    (item : Item) :
    (tryAllPricingItem "Private Link" region sku cat = some item →
      privateLinkMatch region item = true) ∧
    (fetchPriceItem "Private Link" region sku cat = some item →
      privateLinkMatch region item = true) ∧
    selectInPage "Private Link" region sku = List.find? (privateLinkMatch region) := by
  have hsel : selectInPage "Private Link" region sku = List.find? (privateLinkMatch region) := by
    funext items
    simp [selectInPage]
  refine ⟨fun h => ?_, fun h => ?_, hsel⟩
  · unfold tryAllPricingItem at h
    rw [if_neg (by decide)] at h
    obtain ⟨items, hi⟩ := cascadeBreak_some _ cat _ item h
    rw [hsel] at hi
    exact List.find?_some hi
  · unfold fetchPriceItem at h
    obtain ⟨items, hi⟩ := cascadeStrict_some _ cat _ item h
    rw [hsel] at hi
    exact List.find?_some hi

/-- A Private Link catalog item for the C4 witness. -/
def plWitnessItem : Item := Item.mk 1 "1 Hour" "Private Endpoint" "" "" "eastus"

/-- A catalog whose tier-2 page carries the Private Link item. -/
def plWitnessCat : Filter → List PageResp
  | Filter.tier2 _ _ => [PageResp.ok [plWitnessItem]]
  | _ => []

/-- Witness for C4: the concrete lookup finds the item and it satisfies the
exact Private Link conditions. -/
theorem privateLink_exact_match_only_witness :
    privateLinkMatch "eastus" plWitnessItem = true :=
  (privateLink_exact_match_only "eastus" "" plWitnessCat plWitnessItem).1 (by decide)

/-- C10: whenever either pricing implementation reports `found = true`, the
returned unit price is strictly positive, because every selection clause
requires a positive retail price. -/
theorem found_price_positive (service region sku : String) (cat : Filter → List PageResp) :
    ((tryAllPricing service region sku cat).2.2 = true →
      0 < (tryAllPricing service region sku cat).1) ∧
    ((fetchPrice service region sku cat).2.2 = true →
      0 < (fetchPrice service region sku cat).1) := by
  constructor
  · intro h
    unfold tryAllPricing at h ⊢
    cases hi : tryAllPricingItem service region sku cat with
    | none => rw [hi] at h; simp at h
    | some i =>
      show (0 : Rat) < i.retailPrice
      unfold tryAllPricingItem at hi
      by_cases hserv : (service == "") = true
      · rw [if_pos hserv] at hi; cases hi
      · rw [if_neg hserv] at hi
        obtain ⟨items, hsel⟩ := cascadeBreak_some _ cat _ i hi
        exact selectInPage_some_pos service region sku items i hsel
  · intro h
    unfold fetchPrice at h ⊢
    cases hi : fetchPriceItem service region sku cat with
    | none => rw [hi] at h; simp at h
    | some i =>
      show (0 : Rat) < i.retailPrice
      unfold fetchPriceItem at hi
      obtain ⟨items, hsel⟩ := cascadeStrict_some _ cat _ i hi
      exact selectInPage_some_pos service region sku items i hsel

/-- A consumption-metered item for the C10 witness. -/
def posWitnessItem : Item := Item.mk 2 "1 Hour" "LRS Write Operations" "" "" "westus"

/-- A catalog whose service-only tier carries the item. -/
def posWitnessCat : Filter → List PageResp
  | Filter.tier3 _ => [PageResp.ok [posWitnessItem]]
  | _ => []

/-- Witness for C10 on a concrete found lookup, for both implementations. -/
theorem found_price_positive_witness :
    (0 : Rat) < (tryAllPricing "Storage" "" "" posWitnessCat).1 ∧
    (0 : Rat) < (fetchPrice "Storage" "" "" posWitnessCat).1 :=
  ⟨(found_price_positive "Storage" "" "" posWitnessCat).1 (by decide),
   (found_price_positive "Storage" "" "" posWitnessCat).2 (by decide)⟩

/-! ## C3: what a transport/decode failure does to the lookup -/

/-- A tier-2 item matching the generic policy by exact SKU. -/
def c3Item : Item :=
  Item.mk 1 "1 Hour" "D2s v3" "Standard_D2s_v3" "Standard_D2s_v3" "eastus"

/-- Catalog for the C3 counterexample: the most-specific tier's only page
request fails (transport error), the next tier matches. -/
def c3Catalog : Filter → List PageResp
  | Filter.tier1 _ _ _ => [PageResp.fail]
  | Filter.tier2 _ _ => [PageResp.ok [c3Item]]
  | Filter.tier3 _ => []

/-- C3 counterexample: `tryAllPricing` — the lookup `runEstimate` actually
calls — does NOT return not-found after a tier-1 transport failure; it
proceeds to tier 2 and returns its match.  The claim's "no later,
less-specific tiers are queried after the failure" is false of this
implementation (it is true of `FetchPrice` in `azure/pricing.go`). -/
theorem tryAllPricing_failure_not_global :
    tryAllPricing "Virtual Machines" "eastus" "Standard_D2s_v3" c3Catalog =
      (1, "1 Hour", true) ∧
    c3Catalog (Filter.tier1 "Virtual Machines" "eastus" "Standard_D2s_v3") =
      [PageResp.fail] :=
  ⟨by decide, rfl⟩

/-- Pages queued behind a failed request are never reached: the failure
ends that tier's pagination. -/
theorem scanTierBreak_fail_stops (sel : List Item → Option Item) (ps junk : List PageResp) :
    scanTierBreak sel (ps ++ PageResp.fail :: junk) = scanTierBreak sel ps := by
  induction ps with
  | nil => rfl
  | cons p rest ih =>
    cases p with
    | fail => rfl
    | ok items =>
      simp only [List.cons_append, scanTierBreak]
      cases sel items
      · exact ih
      · rfl

/-- C3 amended: in `tryAllPricing` a transport or decode failure on a page
request ends only that filter tier's pagination — everything after the
failure in that tier is irrelevant, and the cascade proceeds to the later,
less-specific tiers exactly as if the failing tier had simply run out of
pages.  (In `FetchPrice` of `azure/pricing.go` the failure does abort the
whole lookup.) -/
theorem tryAllPricing_failure_skips_tier (service region sku : String)
    (cat cat2 : Filter → List PageResp) (f : Filter) (ps junk : List PageResp)
    (h1 : cat f = ps ++ PageResp.fail :: junk)
    (h2 : cat2 f = ps)
    (h3 : ∀ g, g ≠ f → cat2 g = cat g) :
    tryAllPricing service region sku cat2 = tryAllPricing service region sku cat := by
  have key : ∀ (sel : List Item → Option Item) (fs : List Filter),
      cascadeBreak sel cat2 fs = cascadeBreak sel cat fs := by
    intro sel fs
    induction fs with
    | nil => rfl
    | cons g gs ih =>
      simp only [cascadeBreak]
      have hg : scanTierBreak sel (cat2 g) = scanTierBreak sel (cat g) := by
        by_cases hgf : g = f
        · subst hgf; rw [h1, h2, scanTierBreak_fail_stops]
        · rw [h3 g hgf]
      rw [hg, ih]
  unfold tryAllPricing tryAllPricingItem
  rw [key]

/-- Witness for C3's amended statement on the concrete failing catalog:
replacing the failed tier-1 page chain by an empty one leaves the lookup's
result unchanged. -/
theorem tryAllPricing_failure_skips_tier_witness :
    tryAllPricing "Virtual Machines" "eastus" "Standard_D2s_v3"
      (fun g => if g = Filter.tier1 "Virtual Machines" "eastus" "Standard_D2s_v3"
        then [] else c3Catalog g) =
    tryAllPricing "Virtual Machines" "eastus" "Standard_D2s_v3" c3Catalog :=
  tryAllPricing_failure_skips_tier "Virtual Machines" "eastus" "Standard_D2s_v3"
    c3Catalog _ (Filter.tier1 "Virtual Machines" "eastus" "Standard_D2s_v3") [] []
    rfl (by simp) (fun g hg => if_neg hg)

/-! ## Cost calculator claims -/

/-- C8: for any unit of measure containing "hour" case-insensitively, the
monthly cost is unit price × 730 × quantity. -/
theorem monthlyCost_hourly (price qty : Rat) (unit : String)
    (h : goContains (goToLower unit) "hour" = true) :
    monthlyCost price unit qty = price * 730 * qty := by
  simp only [monthlyCost, h, if_true]

/-- Witness for C8 at the spec's example: unit "1 Hour", price 0.10,
quantity 2 give 146.00. -/
theorem monthlyCost_hourly_witness :
    goContains (goToLower "1 Hour") "hour" = true ∧
    monthlyCost ((1 : Rat)/10) "1 Hour" 2 = 146 :=
  ⟨by decide, by rw [monthlyCost_hourly ((1 : Rat)/10) 2 "1 Hour" (by decide)]; norm_num⟩

/-- C9: a private-endpoint resource whose lookup failed gets the synthetic
record — unit cost 0.01, unit "1 Hour", monthly cost 0.01 × 730 × quantity,
marked found — and for a positive quantity that monthly cost is strictly
positive, so the resource enters the total. -/
theorem privateEndpoint_fallback_record (uc0 : Rat) (unit0 : String) (qty : Rat) :
    priceRecord "azurerm_private_endpoint" uc0 unit0 false qty =
      ((1 : Rat)/100, "1 Hour", (1 : Rat)/100 * 730 * qty, true) ∧
    (0 < qty → 0 < (1 : Rat)/100 * 730 * qty) := by
  constructor
  · have h : goContains (goToLower "1 Hour") "hour" = true := by decide
    simp [priceRecord, monthlyCost, h]
  · intro hq
    positivity

/-- Witness for C9 at quantity 2 and an arbitrary junk incoming triple. -/
theorem privateEndpoint_fallback_record_witness :
    priceRecord "azurerm_private_endpoint" 5 "X" false 2 =
      ((1 : Rat)/100, "1 Hour", (1 : Rat)/100 * 730 * 2, true) ∧
    (0 : Rat) < (1 : Rat)/100 * 730 * 2 :=
  ⟨(privateEndpoint_fallback_record 5 "X" 2).1,
   (privateEndpoint_fallback_record 5 "X" 2).2 (by norm_num)⟩

end CostEstimator
